import Mathlib

/-
  Verification of the voice-Bible audio application (src/app.py).

  The development shallowly embeds the command/state machine and the audio
  playback queue manager of the AdvancedVoiceBible class.  Python strings are
  modelled as Lean strings (operated on through their character lists, ASCII
  semantics), the mp3 files produced by gTTS are modelled by an Artifact
  record carrying a fresh numeric id (standing for the timestamped file name),
  and the mutable object state is an explicit AppState record.  The background
  audio worker thread (audio_worker, lines 42-63) is modelled by the
  deterministic function workerRound performing one observable action of the
  worker loop; the interleaving of the listener thread and the worker thread
  is the step relation Step.
-/

namespace VoiceBible

/-! ## Character and string helpers (Python str semantics, ASCII) -/

/-- Boolean list-prefix test (Python startswith, used to find substrings). -/
def isPrefixQ : List Char → List Char → Bool
  | [], _ => true
  | _ :: _, [] => false
  | p :: ps, c :: cs => p == c && isPrefixQ ps cs

/-- Occurrence of pat anywhere in the character list: the Python
substring operator in used by process_command and listen_loop. -/
def containsChars (pat : List Char) : List Char → Bool
  | [] => isPrefixQ pat []
  | c :: t => isPrefixQ pat (c :: t) || containsChars pat t

/-- Python-style substring containment on strings. -/
def containsSub (s pat : String) : Bool := containsChars pat.data s.data

/-- Python str.lower per character (ASCII), as used by .lower(). -/
def lowerChars (l : List Char) : List Char := l.map Char.toLower

/-- ASCII whitespace, the character class stripped by Python str.strip
and matched by the regex class backslash-s. -/
def isSpaceChar (c : Char) : Bool :=
  c == ' ' || c == '\t' || c == '\n' || c == '\r' || c == '\x0b' || c == '\x0c'

/-- Python str.strip(): drop whitespace at both ends. -/
def trimChars (l : List Char) : List Char :=
  ((l.dropWhile isSpaceChar).reverse.dropWhile isSpaceChar).reverse

/-- The replace(" first", " fast") mishearing fix of process_command
(line 109): scan left to right, rewriting each non-overlapping
occurrence of " first" to " fast" and keeping everything else. -/
def fixMishearing : List Char → List Char
  | ' ' :: 'f' :: 'i' :: 'r' :: 's' :: 't' :: rest => " fast".data ++ fixMishearing rest
  | c :: t => c :: fixMishearing t
  | [] => []

/-- The normalization performed at the top of process_command
(lines 108-109): lower-case, strip, fix the known mishearing. -/
def normalize (command : String) : String :=
  String.mk (fixMishearing (trimChars (lowerChars command.data)))

/-! ## The verse-reference regular expression of process_command (line 141)

The pattern is (?:read|say|play) then one-or-more whitespace then a captured
one-or-more run of word characters, whitespace or colons, searched leftmost
by re.search.  The three alternatives start with distinct letters, so no
alternation backtracking arises; the only backtracking point is when the
greedy whitespace run consumes the rest of the input, in which case its last
character is given back to the capture group (whitespace belongs to the
captured class as well). -/

/-- Word characters of the regex class: alphanumerics and underscore. -/
def isWordChar (c : Char) : Bool := c.isAlphanum || c == '_'

/-- The captured character class: word characters, whitespace or colon. -/
def isRefChar (c : Char) : Bool := isWordChar c || isSpaceChar c || c == ':'

/-- If the list starts with pat, return the remainder. -/
def dropPrefixQ : List Char → List Char → Option (List Char)
  | rest, [] => some rest
  | [], _ :: _ => none
  | c :: cs, p :: ps => if c == p then dropPrefixQ cs ps else none

/-- Match one of the verbs read, say, play at the head of the list,
returning what follows the verb. -/
def matchVerbAt (l : List Char) : Option (List Char) :=
  match dropPrefixQ l ("read".data) with
  | some r => some r
  | none =>
    match dropPrefixQ l ("say".data) with
    | some r => some r
    | none => dropPrefixQ l ("play".data)

/-- Match the regex tail after a verb: one-or-more whitespace then the
greedy capture group. -/
def matchRef (r : List Char) : Option (List Char) :=
  let sp := r.takeWhile isSpaceChar
  let rest := r.drop sp.length
  if sp.length = 0 then none
  else if (rest.takeWhile isRefChar).length ≠ 0 then some (rest.takeWhile isRefChar)
  else if 2 ≤ sp.length then some [(sp.getLast?).getD ' ']
  else none

/-- Leftmost re.search of the verse pattern; returns the captured group. -/
def searchVerse : List Char → Option (List Char)
  | [] => none
  | c :: cs =>
    match (match matchVerbAt (c :: cs) with
           | some r => matchRef r
           | none => none) with
    | some cap => some cap
    | none => searchVerse cs

/-- verse_match.group(1).replace(" ", "").lower() of line 143: remove the
space characters of the captured reference and lower-case it. -/
def verseRefOf (cap : List Char) : String :=
  String.mk (lowerChars (cap.filter (fun c => c != ' ')))

/-! ## Data model: artifacts and application state -/

/-- A synthesized audio artifact: the temporary mp3 file written by
tts.save in speak (lines 78-80).  The id stands for the timestamped file
name (fresh per call), text/lang/slow are the gTTS synthesis parameters.
The playable flag records the environment fact of whether
pygame.mixer.music.load/play will succeed on the file; speak always
produces it from a successful tts.save, so enqueue sites pass true. -/
structure Artifact where
  id : Nat
  text : String
  lang : String
  slow : Bool
  playable : Bool
deriving DecidableEq

/-- The mutable state of an AdvancedVoiceBible object (lines 12-38)
together with the state of the audio device and worker thread.
audio_queue is self.audio_queue; playing/busy model the file currently
loaded in pygame.mixer.music and pygame.mixer.music.get_busy();
playbackEnabled is self.playback_event; current_state is
self.current_state (0 = SLEEP, 1 = ACTIVE, 2 = PAUSED); released lists
the ids of the files deleted so far by _safe_remove; crashed records
whether the worker thread has died from an uncaught exception. -/
structure AppState where
  audio_queue : List Artifact
  playing : Option Artifact
  busy : Bool
  playbackEnabled : Bool
  current_state : Nat
  speech_rate : ℚ
  volume : ℚ
  nextId : Nat
  released : List Nat
  crashed : Bool
deriving DecidableEq

/-- The state built by AdvancedVoiceBible.__init__ (lines 12-38). -/
def initState : AppState :=
  { audio_queue := [], playing := none, busy := false, playbackEnabled := true,
    current_state := 0, speech_rate := 1, volume := 7/10, nextId := 0,
    released := [], crashed := false }

/-- self.bible_data of _load_bible_data (lines 65-71). -/
def bible_data : List (String × String) :=
  [("genesis1:1", "In the beginning, God created the heavens and the earth..."),
   ("john3:16", "For God so loved the world that he gave his only Son..."),
   ("psalm23:1", "The Lord is my shepherd, I shall not want...")]

/-- Dictionary membership / lookup on bible_data (lines 144-145). -/
def bibleLookup (ref : String) : Option String :=
  (bible_data.find? (fun p => p.1 == ref)).map (fun p => p.2)

/-- self.wake_words (line 22). -/
def wake_words : List String := ["bible", "scripture", "word"]

/-! ## The playback queue manager operations -/

/-- pygame.mixer.music.stop() as called from speak (line 76): the music
stream stops being busy; the loaded file stays loaded. -/
def stopMusic (s : AppState) : AppState := { s with busy := false }

/-- _safe_remove (lines 90-101): delete the file if it still exists.
A file exists exactly when it has not been released yet, so a second
call on the same artifact is a no-op; the deletion itself never fails in
the model (the retry of lines 95-101 handles transient OS errors). -/
def safe_remove (a : Artifact) (s : AppState) : AppState :=
  if s.released.count a.id = 0 then { s with released := a.id :: s.released } else s

/-- The queue-clearing loop of speak (lines 84-86): repeatedly get an old
file from the queue and _safe_remove it. -/
def drainQueue (q : List Artifact) (s : AppState) : AppState :=
  match q with
  | [] => s
  | a :: t => drainQueue t (safe_remove a s)

/-- speak (lines 73-88).  If interruptible and the mixer is busy, stop the
music; synthesize the text into a fresh artifact (gTTS with lang en,
slow False, saved under a fresh timestamped name); if priority, drain and
release the whole queue; finally put the new artifact on the queue.
The playable argument records whether the written file will later load
and play (normal operation: true). -/
def speak (text : String) (interruptible priority playable : Bool) (s : AppState) : AppState :=
  let s1 := if interruptible && s.busy then stopMusic s else s
  let art : Artifact := { id := s1.nextId, text := text, lang := "en", slow := false,
                          playable := playable }
  let s2 := if priority then drainQueue s1.audio_queue { s1 with audio_queue := [] } else s1
  { s2 with audio_queue := s2.audio_queue ++ [art], nextId := s2.nextId + 1 }

/-- One observable action of the audio_worker loop (lines 42-63).
A crashed worker does nothing.  If a file is loaded and busy, the worker
is inside the completion-polling loop: when playback is enabled the track
may finish (busy becomes false); when playback is disabled the worker has
paused the music and blocks in playback_event.wait(), so nothing happens.
If a file is loaded and not busy, the polling loop exits and the file is
cleaned up with _safe_remove.  If no file is loaded, the worker blocks on
an empty queue, or gets the next file and starts playing it; a file that
fails to load raises out of the loop and kills the worker thread (there
is no try/except around lines 48-58). -/
def workerRound (s : AppState) : AppState :=
  if s.crashed then s
  else
    match s.playing with
    | some a =>
      if s.busy then
        if s.playbackEnabled then { s with busy := false } else s
      else safe_remove a { s with playing := none }
    | none =>
      match s.audio_queue with
      | [] => s
      | a :: rest =>
        if a.playable then { s with audio_queue := rest, playing := some a, busy := true }
        else { s with audio_queue := rest, crashed := true }

/-! ## The command rules of process_command -/

/-- The intents distinguished by the rule cascade of process_command
(lines 112-153).  The code has no Stop rule and no Stop-like variant:
every recognized command is one of these. -/
inductive Intent where
  | pause
  | resume
  | sleep
  | faster
  | slower
  | lookup (ref : String)
  | unrecognized
deriving DecidableEq

/-- The rule cascade of process_command (lines 112-153) applied to an
already-normalized command, first match wins: pause; resume/continue;
sleep/stop listening; faster/speed up; slower/slow down; the verse
regex; otherwise unrecognized. -/
def matchIntent (command : String) : Intent :=
  if containsSub command "pause" then .pause
  else if containsSub command "resume" || containsSub command "continue" then .resume
  else if containsSub command "sleep" || containsSub command "stop listening" then .sleep
  else if containsSub command "faster" || containsSub command "speed up" then .faster
  else if containsSub command "slower" || containsSub command "slow down" then .slower
  else
    match searchVerse command.data with
    | some cap => .lookup (verseRefOf cap)
    | none => .unrecognized

/-- process_command (lines 103-153): normalize the raw command, find the
first matching rule, perform its state mutations and speak the feedback
(always with interruptible=True and default priority=False), and return
the True/False result of the method. -/
def process_command (command : String) (s : AppState) : AppState × Bool :=
  let cmd := normalize command
  match matchIntent cmd with
  | .pause =>
      (speak "Playback paused" true false true
        { s with current_state := 2, playbackEnabled := false }, true)
  | .resume =>
      (speak "Resuming playback" true false true
        { s with current_state := 1, playbackEnabled := true }, true)
  | .sleep =>
      (speak "Going to sleep" true false true { s with current_state := 0 }, true)
  | .faster =>
      let r := min 2 (s.speech_rate + 1/4)
      (speak ("Speed set to " ++ toString r ++ "x") true false true
        { s with speech_rate := r }, true)
  | .slower =>
      let r := max (1/2) (s.speech_rate - 1/4)
      (speak ("Speed set to " ++ toString r ++ "x") true false true
        { s with speech_rate := r }, true)
  | .lookup ref =>
      match bibleLookup ref with
      | some verse => (speak ("Reading " ++ ref ++ ". " ++ verse) true false true s, true)
      | none => (speak "Verse not found" true false true s, false)
  | .unrecognized => (speak "Command not recognized" true false true s, false)

/-! ## The listen_loop transitions (lines 155-219) -/

/-- The SLEEP-state branch of listen_loop (lines 169-178): if the heard
text contains a wake word, become ACTIVE and speak the greeting with
interruptible=True and default priority=False. -/
def sleepListen (text : String) (s : AppState) : AppState :=
  if wake_words.any (fun w => containsSub text w) then
    speak "How can I help you?" true false true { s with current_state := 1 }
  else s

/-- The PAUSED-state branch of listen_loop (lines 202-211): on a resume,
continue or wake word, become ACTIVE, set the playback event, and speak
the acknowledgement. -/
def pausedListen (s : AppState) : AppState :=
  speak "Resuming playback" true false true
    { s with current_state := 1, playbackEnabled := true }

/-- The ACTIVE-state timeout branch of listen_loop (lines 195-197). -/
def activeTimeout (s : AppState) : AppState :=
  speak "Returning to sleep" true false true { s with current_state := 0 }

/-! ## Interleaving of the listener thread and the worker thread -/

/-- One atomic step of the system: either the worker thread performs one
action of its loop, or the listener thread performs one of the operations
of the source (a speak call, a full process_command, or one of the
listen_loop branches).  Listener-produced artifacts are playable (normal
operation: tts.save wrote a loadable mp3). -/
inductive Step : AppState → AppState → Prop
  | worker (s : AppState) : Step s (workerRound s)
  | speech (s : AppState) (text : String) (intr pr : Bool) : Step s (speak text intr pr true s)
  | command (s : AppState) (cmd : String) : Step s (process_command cmd s).1
  | wake (s : AppState) (text : String) : Step s (sleepListen text s)
  | pausedResume (s : AppState) : Step s (pausedListen s)
  | timeout (s : AppState) : Step s (activeTimeout s)

/-- States reachable from the freshly initialized application. -/
def Reachable (s : AppState) : Prop := Relation.ReflTransGen Step initState s

/-! ## Artifact accounting -/

/-- How many queue entries reference artifact id i. -/
def queueCount (q : List Artifact) (i : Nat) : Nat := q.countP (fun a => a.id == i)

/-- Whether the loaded file references artifact id i (0 or 1). -/
def playBit (o : Option Artifact) (i : Nat) : Nat :=
  match o with
  | some a => if a.id = i then 1 else 0
  | none => 0

/-- How many live references the system holds to artifact id i. -/
def pendingCount (s : AppState) (i : Nat) : Nat :=
  queueCount s.audio_queue i + playBit s.playing i

/-- How often artifact id i has been deleted. -/
def releasedCount (s : AppState) (i : Nat) : Nat := s.released.count i

/-! ## Basic lemmas about the queue-manager operations -/

@[simp] theorem safe_remove_queue (a : Artifact) (s : AppState) :
    (safe_remove a s).audio_queue = s.audio_queue := by
  unfold safe_remove; split <;> rfl

@[simp] theorem safe_remove_playing (a : Artifact) (s : AppState) :
    (safe_remove a s).playing = s.playing := by
  unfold safe_remove; split <;> rfl

@[simp] theorem safe_remove_nextId (a : Artifact) (s : AppState) :
    (safe_remove a s).nextId = s.nextId := by
  unfold safe_remove; split <;> rfl

@[simp] theorem safe_remove_busy (a : Artifact) (s : AppState) :
    (safe_remove a s).busy = s.busy := by
  unfold safe_remove; split <;> rfl

@[simp] theorem safe_remove_enabled (a : Artifact) (s : AppState) :
    (safe_remove a s).playbackEnabled = s.playbackEnabled := by
  unfold safe_remove; split <;> rfl

@[simp] theorem safe_remove_mode (a : Artifact) (s : AppState) :
    (safe_remove a s).current_state = s.current_state := by
  unfold safe_remove; split <;> rfl

@[simp] theorem safe_remove_rate (a : Artifact) (s : AppState) :
    (safe_remove a s).speech_rate = s.speech_rate := by
  unfold safe_remove; split <;> rfl

@[simp] theorem safe_remove_crashed (a : Artifact) (s : AppState) :
    (safe_remove a s).crashed = s.crashed := by
  unfold safe_remove; split <;> rfl

@[simp] theorem safe_remove_volume (a : Artifact) (s : AppState) :
    (safe_remove a s).volume = s.volume := by
  unfold safe_remove; split <;> rfl

theorem count_cons_nat (b a : Nat) (l : List Nat) :
    (a :: l).count b = l.count b + (if b = a then 1 else 0) := by
  rcases eq_or_ne b a with rfl | h
  · simp [List.count_cons]
  · simp [List.count_cons, h, Ne.symm h]

theorem safe_remove_count_mono (a : Artifact) (s : AppState) (i : Nat) :
    s.released.count i ≤ (safe_remove a s).released.count i := by
  unfold safe_remove; split
  · show s.released.count i ≤ (a.id :: s.released).count i
    rw [count_cons_nat]
    omega
  · exact Nat.le_refl _

theorem safe_remove_count_self (a : Artifact) (s : AppState) :
    1 ≤ (safe_remove a s).released.count a.id := by
  unfold safe_remove; split
  · show 1 ≤ (a.id :: s.released).count a.id
    rw [count_cons_nat, if_pos rfl]
    omega
  · omega

theorem safe_remove_count_other (a : Artifact) (s : AppState) (i : Nat) (h : i ≠ a.id) :
    (safe_remove a s).released.count i = s.released.count i := by
  unfold safe_remove; split
  · show (a.id :: s.released).count i = s.released.count i
    rw [count_cons_nat, if_neg h]
    omega
  · rfl

@[simp] theorem drainQueue_queue (q : List Artifact) (s : AppState) :
    (drainQueue q s).audio_queue = s.audio_queue := by
  induction q generalizing s with
  | nil => rfl
  | cons a t ih => simp [drainQueue, ih]

@[simp] theorem drainQueue_playing (q : List Artifact) (s : AppState) :
    (drainQueue q s).playing = s.playing := by
  induction q generalizing s with
  | nil => rfl
  | cons a t ih => simp [drainQueue, ih]

@[simp] theorem drainQueue_nextId (q : List Artifact) (s : AppState) :
    (drainQueue q s).nextId = s.nextId := by
  induction q generalizing s with
  | nil => rfl
  | cons a t ih => simp [drainQueue, ih]

@[simp] theorem drainQueue_busy (q : List Artifact) (s : AppState) :
    (drainQueue q s).busy = s.busy := by
  induction q generalizing s with
  | nil => rfl
  | cons a t ih => simp [drainQueue, ih]

@[simp] theorem drainQueue_enabled (q : List Artifact) (s : AppState) :
    (drainQueue q s).playbackEnabled = s.playbackEnabled := by
  induction q generalizing s with
  | nil => rfl
  | cons a t ih => simp [drainQueue, ih]

@[simp] theorem drainQueue_mode (q : List Artifact) (s : AppState) :
    (drainQueue q s).current_state = s.current_state := by
  induction q generalizing s with
  | nil => rfl
  | cons a t ih => simp [drainQueue, ih]

@[simp] theorem drainQueue_rate (q : List Artifact) (s : AppState) :
    (drainQueue q s).speech_rate = s.speech_rate := by
  induction q generalizing s with
  | nil => rfl
  | cons a t ih => simp [drainQueue, ih]

@[simp] theorem drainQueue_crashed (q : List Artifact) (s : AppState) :
    (drainQueue q s).crashed = s.crashed := by
  induction q generalizing s with
  | nil => rfl
  | cons a t ih => simp [drainQueue, ih]

@[simp] theorem drainQueue_volume (q : List Artifact) (s : AppState) :
    (drainQueue q s).volume = s.volume := by
  induction q generalizing s with
  | nil => rfl
  | cons a t ih => simp [drainQueue, ih]

theorem drainQueue_count_mono (q : List Artifact) (s : AppState) (i : Nat) :
    s.released.count i ≤ (drainQueue q s).released.count i := by
  induction q generalizing s with
  | nil => exact Nat.le_refl _
  | cons a t ih =>
      exact Nat.le_trans (safe_remove_count_mono a s i) (ih (safe_remove a s))

/-- Every artifact of the drained list ends up released at least once. -/
theorem drainQueue_count_mem (q : List Artifact) (s : AppState) (a : Artifact)
    (h : a ∈ q) : 1 ≤ (drainQueue q s).released.count a.id := by
  induction q generalizing s with
  | nil => cases h
  | cons b t ih =>
      show 1 ≤ (drainQueue t (safe_remove b s)).released.count a.id
      rcases List.mem_cons.mp h with h1 | h1
      · subst h1
        exact Nat.le_trans (safe_remove_count_self a s)
          (drainQueue_count_mono t (safe_remove a s) a.id)
      · exact ih (safe_remove b s) h1

/-! ## queueCount lemmas -/

@[simp] theorem queueCount_nil (i : Nat) : queueCount [] i = 0 := rfl

theorem queueCount_cons (a : Artifact) (q : List Artifact) (i : Nat) :
    queueCount (a :: q) i = queueCount q i + (if a.id = i then 1 else 0) := by
  simp [queueCount, List.countP_cons]

theorem queueCount_append (q r : List Artifact) (i : Nat) :
    queueCount (q ++ r) i = queueCount q i + queueCount r i := by
  simp [queueCount, List.countP_append]

/-- Draining a queue whose ids occur at most once in queue-plus-released
moves every queue occurrence into the released multiset. -/
theorem drainQueue_count_exact (q : List Artifact) (s : AppState)
    (h : ∀ i, queueCount q i + s.released.count i ≤ 1) (i : Nat) :
    (drainQueue q s).released.count i = s.released.count i + queueCount q i := by
  induction q generalizing s with
  | nil => simp [drainQueue]
  | cons a t ih =>
      have ha := h a.id
      rw [queueCount_cons, if_pos rfl] at ha
      have hs0 : s.released.count a.id = 0 := by omega
      have ht0 : queueCount t a.id = 0 := by omega
      have hrem : safe_remove a s = { s with released := a.id :: s.released } := by
        unfold safe_remove; rw [if_pos hs0]
      have hstep : drainQueue (a :: t) s
          = drainQueue t { s with released := a.id :: s.released } := by
        show drainQueue t (safe_remove a s) = _
        rw [hrem]
      have hside : ∀ j,
          queueCount t j + ({ s with released := a.id :: s.released } : AppState).released.count j ≤ 1 := by
        intro j
        show queueCount t j + (a.id :: s.released).count j ≤ 1
        rcases eq_or_ne j a.id with rfl | hne
        · rw [count_cons_nat, if_pos rfl]
          omega
        · have hj := h j
          rw [queueCount_cons, if_neg (Ne.symm hne)] at hj
          rw [count_cons_nat, if_neg hne]
          omega
      rw [hstep, ih _ hside]
      show (a.id :: s.released).count i + queueCount t i
        = s.released.count i + queueCount (a :: t) i
      rw [count_cons_nat, queueCount_cons]
      rcases eq_or_ne i a.id with rfl | hne
      · rw [if_pos rfl]
        omega
      · rw [if_neg hne, if_neg (Ne.symm hne)]
        omega

/-! ## A closed-form description of speak -/

/-- The effect of the queue-clearing loop on the list of released ids. -/
def releaseList (q : List Artifact) (rel : List Nat) : List Nat :=
  match q with
  | [] => rel
  | a :: t => releaseList t (if rel.count a.id = 0 then a.id :: rel else rel)

theorem safe_remove_released (a : Artifact) (s : AppState) :
    (safe_remove a s).released
      = if s.released.count a.id = 0 then a.id :: s.released else s.released := by
  unfold safe_remove; split <;> simp [*]

theorem drainQueue_released (q : List Artifact) (s : AppState) :
    (drainQueue q s).released = releaseList q s.released := by
  induction q generalizing s with
  | nil => rfl
  | cons a t ih =>
      show (drainQueue t (safe_remove a s)).released = _
      rw [ih, releaseList, safe_remove_released]

/-- Closed form of speak (lines 73-88): the music is stopped when the call
is interruptible and the mixer was busy; the queue is emptied (releasing
every old artifact) when the call has priority; the fresh artifact is
appended; nothing else changes. -/
theorem speak_char (text : String) (intr pr pl : Bool) (s : AppState) :
    speak text intr pr pl s =
      { s with
        busy := s.busy && !intr,
        audio_queue := (if pr then ([] : List Artifact) else s.audio_queue)
          ++ [{ id := s.nextId, text := text, lang := "en", slow := false, playable := pl }],
        nextId := s.nextId + 1,
        released := if pr then releaseList s.audio_queue s.released else s.released } := by
  cases intr <;> cases hb : s.busy <;> cases pr <;>
    simp [speak, stopMusic, drainQueue_released, hb]

/-! Field projections of speak. -/

@[simp] theorem speak_queue (text : String) (intr pr pl : Bool) (s : AppState) :
    (speak text intr pr pl s).audio_queue
      = (if pr then ([] : List Artifact) else s.audio_queue)
        ++ [{ id := s.nextId, text := text, lang := "en", slow := false, playable := pl }] := by
  rw [speak_char]

@[simp] theorem speak_playing (text : String) (intr pr pl : Bool) (s : AppState) :
    (speak text intr pr pl s).playing = s.playing := by
  rw [speak_char]

@[simp] theorem speak_nextId (text : String) (intr pr pl : Bool) (s : AppState) :
    (speak text intr pr pl s).nextId = s.nextId + 1 := by
  rw [speak_char]

@[simp] theorem speak_released (text : String) (intr pr pl : Bool) (s : AppState) :
    (speak text intr pr pl s).released
      = if pr then releaseList s.audio_queue s.released else s.released := by
  rw [speak_char]

@[simp] theorem speak_busy (text : String) (intr pr pl : Bool) (s : AppState) :
    (speak text intr pr pl s).busy = (s.busy && !intr) := by
  rw [speak_char]

@[simp] theorem speak_enabled (text : String) (intr pr pl : Bool) (s : AppState) :
    (speak text intr pr pl s).playbackEnabled = s.playbackEnabled := by
  rw [speak_char]

@[simp] theorem speak_mode (text : String) (intr pr pl : Bool) (s : AppState) :
    (speak text intr pr pl s).current_state = s.current_state := by
  rw [speak_char]

@[simp] theorem speak_rate (text : String) (intr pr pl : Bool) (s : AppState) :
    (speak text intr pr pl s).speech_rate = s.speech_rate := by
  rw [speak_char]

@[simp] theorem speak_volume (text : String) (intr pr pl : Bool) (s : AppState) :
    (speak text intr pr pl s).volume = s.volume := by
  rw [speak_char]

@[simp] theorem speak_crashed (text : String) (intr pr pl : Bool) (s : AppState) :
    (speak text intr pr pl s).crashed = s.crashed := by
  rw [speak_char]

/-! ## The exactly-once-release invariant -/

/-- The artifact-accounting invariant maintained by every step of the
system: each created artifact id (an id below nextId) is referenced by
the queue and the loaded-file slot plus counted in released exactly once;
uncreated ids are nowhere; all live artifacts are playable and the worker
thread is alive. -/
structure Inv (s : AppState) : Prop where
  accounted : ∀ i, i < s.nextId → pendingCount s i + releasedCount s i = 1
  fresh : ∀ i, s.nextId ≤ i → pendingCount s i = 0 ∧ releasedCount s i = 0
  playableQ : ∀ a, a ∈ s.audio_queue → a.playable = true
  playableP : ∀ a, s.playing = some a → a.playable = true
  alive : s.crashed = false

theorem inv_init : Inv initState := by
  refine ⟨?_, ?_, ?_, ?_, rfl⟩
  · intro i hi
    exact absurd hi (Nat.not_lt_zero i)
  · intro i _
    exact ⟨rfl, rfl⟩
  · intro a ha
    cases ha
  · intro a ha
    cases ha

theorem pendingCount_eq (s : AppState) (i : Nat) :
    pendingCount s i = queueCount s.audio_queue i + playBit s.playing i := rfl

/-- Playing artifacts are already created. -/
theorem playing_lt_nextId (s : AppState) (h : Inv s) (a : Artifact)
    (hp : s.playing = some a) : a.id < s.nextId := by
  by_contra hlt
  have h0 := (h.fresh a.id (Nat.le_of_not_lt hlt)).1
  rw [pendingCount_eq, hp] at h0
  simp [playBit] at h0

/-- Queued artifacts are already created. -/
theorem queued_lt_nextId (s : AppState) (h : Inv s) (a : Artifact)
    (hq : a ∈ s.audio_queue) : a.id < s.nextId := by
  by_contra hlt
  have h0 := (h.fresh a.id (Nat.le_of_not_lt hlt)).1
  rw [pendingCount_eq] at h0
  have hone : 1 ≤ queueCount s.audio_queue a.id := by
    unfold queueCount
    exact List.countP_pos_iff.mpr ⟨a, hq, by simp⟩
  omega

/-- Inv gives the side condition of drainQueue_count_exact. -/
theorem inv_queue_released_le (s : AppState) (h : Inv s) (i : Nat) :
    queueCount s.audio_queue i + s.released.count i ≤ 1 := by
  rcases Nat.lt_or_ge i s.nextId with hi | hi
  · have := h.accounted i hi
    rw [pendingCount_eq] at this
    unfold releasedCount at this
    omega
  · have := h.fresh i hi
    rw [pendingCount_eq] at this
    unfold releasedCount at this
    omega

/-- Under the invariant, clearing the queue releases each queued id once. -/
theorem inv_releaseList_count (s : AppState) (h : Inv s) (i : Nat) :
    (releaseList s.audio_queue s.released).count i
      = s.released.count i + queueCount s.audio_queue i := by
  have := drainQueue_count_exact s.audio_queue { s with audio_queue := [] }
    (fun j => inv_queue_released_le s h j) i
  rw [drainQueue_released] at this
  exact this

/-- speak with a playable artifact preserves the invariant. -/
theorem speak_inv (text : String) (intr pr : Bool) (s : AppState) (h : Inv s) :
    Inv (speak text intr pr true s) := by
  have hrel := inv_releaseList_count s h
  have hf := h.fresh s.nextId (Nat.le_refl _)
  rw [pendingCount_eq] at hf
  unfold releasedCount at hf
  constructor
  · intro i hi
    rw [speak_nextId] at hi
    rw [pendingCount_eq]
    unfold releasedCount
    simp only [speak_queue, speak_playing, speak_released]
    rw [queueCount_append, queueCount_cons, queueCount_nil]
    rcases Nat.lt_or_ge i s.nextId with hlt | hge
    · have hacc := h.accounted i hlt
      rw [pendingCount_eq] at hacc
      unfold releasedCount at hacc
      have hne : s.nextId ≠ i := by omega
      rw [if_neg hne]
      cases pr
      · simp only [ite_false, Bool.false_eq_true]
        omega
      · simp only [ite_true]
        rw [hrel i]
        simp only [queueCount_nil]
        omega
    · have hi' : i = s.nextId := by omega
      subst hi'
      rw [if_pos rfl]
      cases pr
      · simp only [ite_false, Bool.false_eq_true]
        omega
      · simp only [ite_true]
        rw [hrel s.nextId]
        simp only [queueCount_nil]
        omega
  · intro i hi
    rw [speak_nextId] at hi
    have hfi := h.fresh i (by omega)
    rw [pendingCount_eq] at hfi
    unfold releasedCount at hfi
    have hne : s.nextId ≠ i := by omega
    constructor
    · rw [pendingCount_eq]
      simp only [speak_queue, speak_playing]
      rw [queueCount_append, queueCount_cons, queueCount_nil, if_neg hne]
      cases pr
      · simp only [ite_false, Bool.false_eq_true]
        omega
      · simp only [ite_true, queueCount_nil]
        omega
    · unfold releasedCount
      simp only [speak_released]
      cases pr
      · simp only [ite_false, Bool.false_eq_true]
        omega
      · simp only [ite_true]
        rw [hrel i]
        omega
  · intro a ha
    rw [speak_queue] at ha
    rcases List.mem_append.mp ha with h1 | h1
    · cases pr
      · exact h.playableQ a (by simpa using h1)
      · simp at h1
    · rcases List.mem_singleton.mp h1 with rfl
      rfl
  · intro a ha
    rw [speak_playing] at ha
    exact h.playableP a ha
  · rw [speak_crashed]
    exact h.alive

/-! ## Case equations for the worker -/

theorem workerRound_eq_dead (s : AppState) (hc : s.crashed = true) :
    workerRound s = s := by
  simp [workerRound, hc]

theorem workerRound_eq_finish (s : AppState) (a : Artifact) (hc : s.crashed = false)
    (hp : s.playing = some a) (hb : s.busy = true) (he : s.playbackEnabled = true) :
    workerRound s = { s with busy := false } := by
  simp [workerRound, hc, hp, hb, he]

theorem workerRound_eq_blocked (s : AppState) (a : Artifact) (hc : s.crashed = false)
    (hp : s.playing = some a) (hb : s.busy = true) (he : s.playbackEnabled = false) :
    workerRound s = s := by
  simp [workerRound, hc, hp, hb, he]

theorem workerRound_eq_reap (s : AppState) (a : Artifact) (hc : s.crashed = false)
    (hp : s.playing = some a) (hb : s.busy = false) :
    workerRound s = safe_remove a { s with playing := none } := by
  simp [workerRound, hc, hp, hb]

theorem workerRound_eq_idle (s : AppState) (hc : s.crashed = false)
    (hp : s.playing = none) (hq : s.audio_queue = []) :
    workerRound s = s := by
  simp [workerRound, hc, hp, hq]

theorem workerRound_eq_fetch (s : AppState) (a : Artifact) (rest : List Artifact)
    (hc : s.crashed = false) (hp : s.playing = none) (hq : s.audio_queue = a :: rest)
    (hpl : a.playable = true) :
    workerRound s = { s with audio_queue := rest, playing := some a, busy := true } := by
  simp [workerRound, hc, hp, hq, hpl]

theorem workerRound_eq_crash (s : AppState) (a : Artifact) (rest : List Artifact)
    (hc : s.crashed = false) (hp : s.playing = none) (hq : s.audio_queue = a :: rest)
    (hpl : a.playable = false) :
    workerRound s = { s with audio_queue := rest, crashed := true } := by
  simp [workerRound, hc, hp, hq, hpl]

theorem safe_remove_count_zero (a : Artifact) (s : AppState)
    (h0 : s.released.count a.id = 0) :
    (safe_remove a s).released.count a.id = 1 := by
  unfold safe_remove
  rw [if_pos h0]
  show (a.id :: s.released).count a.id = 1
  rw [count_cons_nat, if_pos rfl, h0]

/-- One round of the worker preserves the invariant. -/
theorem workerRound_inv (s : AppState) (h : Inv s) : Inv (workerRound s) := by
  rcases hp : s.playing with _ | a
  · rcases hq : s.audio_queue with _ | ⟨a, rest⟩
    · rw [workerRound_eq_idle s h.alive hp hq]
      exact h
    · have hpl : a.playable = true := h.playableQ a (by rw [hq]; exact List.mem_cons_self a rest)
      rw [workerRound_eq_fetch s a rest h.alive hp hq hpl]
      refine ⟨?_, ?_, ?_, ?_, h.alive⟩
      · intro i hi
        have hi' : i < s.nextId := hi
        have hacc := h.accounted i hi'
        rw [pendingCount_eq, hq, queueCount_cons, hp] at hacc
        simp only [playBit] at hacc
        unfold releasedCount at hacc
        show queueCount rest i + playBit (some a) i + List.count i s.released = 1
        simp only [playBit]
        omega
      · intro i hi
        have hi' : s.nextId ≤ i := hi
        have hfr := h.fresh i hi'
        rw [pendingCount_eq, hq, queueCount_cons, hp] at hfr
        simp only [playBit] at hfr
        constructor
        · show queueCount rest i + playBit (some a) i = 0
          simp only [playBit]
          omega
        · exact hfr.2
      · intro b hb
        exact h.playableQ b (by rw [hq]; exact List.mem_cons_of_mem a hb)
      · intro b hb
        have hab : a = b := Option.some.inj hb
        rw [← hab]
        exact hpl
  · rcases hb : s.busy with _ | _
    · rw [workerRound_eq_reap s a h.alive hp hb]
      have haid := playing_lt_nextId s h a hp
      refine ⟨?_, ?_, ?_, ?_, ?_⟩
      · intro i hi
        rw [safe_remove_nextId] at hi
        have hi' : i < s.nextId := hi
        have hacc := h.accounted i hi'
        rw [pendingCount_eq, hp] at hacc
        simp only [playBit] at hacc
        unfold releasedCount at hacc
        rw [pendingCount_eq]
        unfold releasedCount
        simp only [safe_remove_queue, safe_remove_playing]
        show queueCount s.audio_queue i + playBit none i
            + List.count i (safe_remove a { s with playing := none }).released = 1
        simp only [playBit]
        by_cases hia : a.id = i
        · rw [if_pos hia] at hacc
          have hq0 : queueCount s.audio_queue i = 0 := by omega
          have hone : (safe_remove a { s with playing := none }).released.count a.id = 1 :=
            safe_remove_count_zero a { s with playing := none } (by
              show s.released.count a.id = 0
              rw [hia]
              omega)
          rw [← hia, hone]
          rw [← hia] at hq0
          omega
        · rw [if_neg hia] at hacc
          have hother := safe_remove_count_other a { s with playing := none } i
            (fun hh => hia hh.symm)
          rw [hother]
          show queueCount s.audio_queue i + 0 + List.count i s.released = 1
          omega
      · intro i hi
        rw [safe_remove_nextId] at hi
        have hi' : s.nextId ≤ i := hi
        have hfr := h.fresh i hi'
        rw [pendingCount_eq, hp] at hfr
        simp only [playBit] at hfr
        unfold releasedCount at hfr
        have hne : i ≠ a.id := by omega
        have hother := safe_remove_count_other a { s with playing := none } i hne
        constructor
        · rw [pendingCount_eq]
          simp only [safe_remove_queue, safe_remove_playing]
          show queueCount s.audio_queue i + playBit none i = 0
          simp only [playBit]
          omega
        · unfold releasedCount
          rw [hother]
          show List.count i s.released = 0
          exact hfr.2
      · intro b hb2
        rw [safe_remove_queue] at hb2
        exact h.playableQ b hb2
      · intro b hb2
        rw [safe_remove_playing] at hb2
        cases hb2
      · rw [safe_remove_crashed]
        exact h.alive
    · rcases he : s.playbackEnabled with _ | _
      · rw [workerRound_eq_blocked s a h.alive hp hb he]
        exact h
      · rw [workerRound_eq_finish s a h.alive hp hb he]
        exact ⟨h.accounted, h.fresh, h.playableQ, h.playableP, h.alive⟩

/-! ## Invariance under the listener thread -/

theorem inv_update_mode_enabled (s : AppState) (h : Inv s) (x : Nat) (b : Bool) :
    Inv { s with current_state := x, playbackEnabled := b } :=
  ⟨h.accounted, h.fresh, h.playableQ, h.playableP, h.alive⟩

theorem inv_update_mode (s : AppState) (h : Inv s) (x : Nat) :
    Inv { s with current_state := x } :=
  ⟨h.accounted, h.fresh, h.playableQ, h.playableP, h.alive⟩

theorem inv_update_rate (s : AppState) (h : Inv s) (r : ℚ) :
    Inv { s with speech_rate := r } :=
  ⟨h.accounted, h.fresh, h.playableQ, h.playableP, h.alive⟩

theorem process_command_inv (cmd : String) (s : AppState) (h : Inv s) :
    Inv (process_command cmd s).1 := by
  simp only [process_command]
  cases hm : matchIntent (normalize cmd)
  · exact speak_inv _ _ _ _ (inv_update_mode_enabled s h 2 false)
  · exact speak_inv _ _ _ _ (inv_update_mode_enabled s h 1 true)
  · exact speak_inv _ _ _ _ (inv_update_mode s h 0)
  · exact speak_inv _ _ _ _ (inv_update_rate s h _)
  · exact speak_inv _ _ _ _ (inv_update_rate s h _)
  · rename_i ref
    dsimp only
    cases hb : bibleLookup ref
    · exact speak_inv _ _ _ _ h
    · exact speak_inv _ _ _ _ h
  · exact speak_inv _ _ _ _ h

theorem sleepListen_inv (text : String) (s : AppState) (h : Inv s) :
    Inv (sleepListen text s) := by
  unfold sleepListen
  split
  · exact speak_inv _ _ _ _ (inv_update_mode s h 1)
  · exact h

theorem pausedListen_inv (s : AppState) (h : Inv s) : Inv (pausedListen s) :=
  speak_inv _ _ _ _ (inv_update_mode_enabled s h 1 true)

theorem activeTimeout_inv (s : AppState) (h : Inv s) : Inv (activeTimeout s) :=
  speak_inv _ _ _ _ (inv_update_mode s h 0)

/-- Every step of the interleaved system preserves the invariant. -/
theorem step_inv (s t : AppState) (hst : Step s t) (h : Inv s) : Inv t := by
  cases hst with
  | worker => exact workerRound_inv s h
  | speech text intr pr => exact speak_inv text intr pr s h
  | command cmd => exact process_command_inv cmd s h
  | wake text => exact sleepListen_inv text s h
  | pausedResume => exact pausedListen_inv s h
  | timeout => exact activeTimeout_inv s h

/-- Every reachable state satisfies the accounting invariant. -/
theorem reachable_inv (s : AppState) (h : Reachable s) : Inv s := by
  induction h with
  | refl => exact inv_init
  | tail _ hstep ih => exact step_inv _ _ hstep ih

/-! ## Termination measure for draining the queue -/

/-- Number of worker rounds left until the queue and the loaded-file slot
are empty (three rounds per queued artifact: fetch, finish, reap). -/
def rounds (s : AppState) : Nat :=
  3 * s.audio_queue.length
    + (match s.playing with
       | some _ => if s.busy then 2 else 1
       | none => 0)

theorem rounds_zero (s : AppState) (h : rounds s = 0) :
    s.audio_queue = [] ∧ s.playing = none := by
  unfold rounds at h
  rcases hp : s.playing with _ | a
  · rw [hp] at h
    refine ⟨List.length_eq_zero.mp (by omega), rfl⟩
  · rw [hp] at h
    rcases hbusy : s.busy with _ | _ <;> rw [hbusy] at h <;> simp at h

theorem workerRound_frame (s : AppState) :
    (workerRound s).playbackEnabled = s.playbackEnabled
      ∧ (workerRound s).nextId = s.nextId := by
  unfold workerRound
  split
  · exact ⟨rfl, rfl⟩
  · split
    · split
      · split
        · exact ⟨rfl, rfl⟩
        · exact ⟨rfl, rfl⟩
      · constructor <;> simp
    · split
      · exact ⟨rfl, rfl⟩
      · split
        · exact ⟨rfl, rfl⟩
        · exact ⟨rfl, rfl⟩

/-- With playback enabled, an alive worker strictly decreases the measure. -/
theorem workerRound_progress (s : AppState) (h : Inv s)
    (he : s.playbackEnabled = true) (hpos : 0 < rounds s) :
    rounds (workerRound s) + 1 = rounds s := by
  rcases hp : s.playing with _ | a
  · rcases hq : s.audio_queue with _ | ⟨a, rest⟩
    · exfalso
      unfold rounds at hpos
      rw [hp, hq] at hpos
      simp at hpos
    · have hpl : a.playable = true := h.playableQ a (by rw [hq]; exact List.mem_cons_self a rest)
      rw [workerRound_eq_fetch s a rest h.alive hp hq hpl]
      unfold rounds
      rw [hp, hq]
      simp [List.length_cons]
      ring
  · rcases hbusy : s.busy with _ | _
    · rw [workerRound_eq_reap s a h.alive hp hbusy]
      unfold rounds
      rw [hp, hbusy]
      simp
    · rw [workerRound_eq_finish s a h.alive hp hbusy he]
      unfold rounds
      rw [hp, hbusy]
      simp

/-- Iterated worker rounds. -/
def iterWorker : Nat → AppState → AppState
  | 0, s => s
  | n + 1, s => iterWorker n (workerRound s)

theorem iterWorker_reachable (n : Nat) (s : AppState) :
    Relation.ReflTransGen Step s (iterWorker n s) := by
  induction n generalizing s with
  | zero => exact Relation.ReflTransGen.refl
  | succ n ih => exact Relation.ReflTransGen.head (Step.worker s) (ih (workerRound s))

/-- Running the worker for rounds s steps empties the system. -/
theorem drain_lemma (n : Nat) : ∀ s : AppState, Inv s → s.playbackEnabled = true →
    rounds s = n →
    Inv (iterWorker n s) ∧ (iterWorker n s).audio_queue = []
      ∧ (iterWorker n s).playing = none ∧ (iterWorker n s).nextId = s.nextId := by
  induction n with
  | zero =>
      intro s h _ hr
      have hz := rounds_zero s hr
      exact ⟨h, hz.1, hz.2, rfl⟩
  | succ n ih =>
      intro s h he hr
      have hpos : 0 < rounds s := by omega
      have hprog := workerRound_progress s h he hpos
      have hfr := workerRound_frame s
      have h1 := workerRound_inv s h
      have he1 : (workerRound s).playbackEnabled = true := by rw [hfr.1]; exact he
      have hr1 : rounds (workerRound s) = n := by omega
      have hres := ih (workerRound s) h1 he1 hr1
      refine ⟨hres.1, hres.2.1, hres.2.2.1, ?_⟩
      show (iterWorker n (workerRound s)).nextId = s.nextId
      rw [hres.2.2.2, hfr.2]

/-! ## Claim C1 -/

/-- Claim C1: every playback artifact that is enqueued is released exactly
once under normal operation.  In every reachable state, each created
artifact id is live (queued or loaded) plus released exactly once in
total, so an artifact that has left the queue and the player has been
deleted exactly once, and a live artifact has never been deleted
(never both, never at most: at-most-once release throughout, exactly-once
once it is neither queued nor playing); moreover the system can always
continue (resume playback and let the worker drain) to a state in which
every created artifact has been released exactly once, whether by normal
completion or by a priority-clearing enqueue. -/
theorem artifact_release_exactly_once (s : AppState) (hs : Reachable s) :
    (∀ i, i < s.nextId → pendingCount s i + releasedCount s i = 1)
    ∧ ∃ t, Relation.ReflTransGen Step s t ∧ ∀ i, i < s.nextId → releasedCount t i = 1 := by
  have hInv : Inv s := reachable_inv s hs
  constructor
  · exact hInv.accounted
  · have hstep : Step s (pausedListen s) := Step.pausedResume s
    have hInv1 : Inv (pausedListen s) := pausedListen_inv s hInv
    have he1 : (pausedListen s).playbackEnabled = true := by
      unfold pausedListen
      rw [speak_enabled]
    have hn1 : (pausedListen s).nextId = s.nextId + 1 := by
      unfold pausedListen
      rw [speak_nextId]
    obtain ⟨hI, hq, hp, hn⟩ :=
      drain_lemma (rounds (pausedListen s)) (pausedListen s) hInv1 he1 rfl
    refine ⟨iterWorker (rounds (pausedListen s)) (pausedListen s), ?_, ?_⟩
    · exact Relation.ReflTransGen.head hstep (iterWorker_reachable _ _)
    · intro i hi
      have hi' : i < (iterWorker (rounds (pausedListen s)) (pausedListen s)).nextId := by
        rw [hn, hn1]
        omega
      have hacc := hI.accounted i hi'
      rw [pendingCount_eq, hq, hp] at hacc
      simp only [playBit, queueCount_nil] at hacc
      unfold releasedCount at hacc
      unfold releasedCount
      omega

/-- Witness for C1 at a concrete reachable state: after one speak from the
initial state, artifact 0 is accounted for exactly once. -/
theorem artifact_release_exactly_once_witness :
    pendingCount (speak "hello" true false true initState) 0
      + releasedCount (speak "hello" true false true initState) 0 = 1 :=
  (artifact_release_exactly_once (speak "hello" true false true initState)
    (Relation.ReflTransGen.single (Step.speech initState "hello" true false))).1 0 (by decide)

/-! ## Concrete states used by witnesses and counterexamples -/

/-- A playable artifact with id 0, as if produced by an earlier speak. -/
def art0 : Artifact :=
  { id := 0, text := "In the beginning", lang := "en", slow := false, playable := true }

/-- An ACTIVE state in which artifact 0 is loaded and busy playing. -/
def playingState : AppState :=
  { audio_queue := [], playing := some art0, busy := true, playbackEnabled := true,
    current_state := 1, speech_rate := 1, volume := 7/10, nextId := 1,
    released := [], crashed := false }

/-- The same situation while the session is Sleeping. -/
def sleepingBusyState : AppState := { playingState with current_state := 0 }

/-- An artifact whose file fails to open in pygame.mixer.music.load. -/
def badArt : Artifact :=
  { id := 0, text := "bad", lang := "en", slow := false, playable := false }

/-- A playable artifact queued behind the failing one. -/
def goodArt : Artifact :=
  { id := 1, text := "good", lang := "en", slow := false, playable := true }

/-- An idle-worker state whose queue holds a failing artifact, then a
playable one. -/
def badState : AppState :=
  { audio_queue := [badArt, goodArt], playing := none, busy := false, playbackEnabled := true,
    current_state := 1, speech_rate := 1, volume := 7/10, nextId := 2,
    released := [], crashed := false }

/-- A state with one queued artifact (id 5), used as a C2 witness. -/
def oldArt : Artifact :=
  { id := 5, text := "old", lang := "en", slow := false, playable := true }

def queuedState : AppState :=
  { audio_queue := [oldArt], playing := none, busy := false, playbackEnabled := true,
    current_state := 1, speech_rate := 1, volume := 7/10, nextId := 6,
    released := [], crashed := false }

/-! ## Claim C2 -/

/-- Claim C2: for every queue state, a speak call in interrupt mode
(interruptible and priority both set, the interrupt priority of the spec)
stops any in-progress playback, releases every currently queued artifact,
and leaves the fresh request as the sole queue member. -/
theorem interrupt_enqueue_sole_member (s : AppState) (text : String) :
    (speak text true true true s).audio_queue
        = [{ id := s.nextId, text := text, lang := "en", slow := false, playable := true }]
    ∧ (speak text true true true s).busy = false
    ∧ ∀ a, a ∈ s.audio_queue → 1 ≤ releasedCount (speak text true true true s) a.id := by
  refine ⟨?_, ?_, ?_⟩
  · rw [speak_queue]
    simp
  · rw [speak_busy]
    simp
  · intro a ha
    unfold releasedCount
    rw [speak_released]
    simp only [ite_true]
    have hmem := drainQueue_count_mem s.audio_queue { s with audio_queue := [] } a ha
    rw [drainQueue_released] at hmem
    exact hmem

/-- Witness for C2: the artifact with id 5 queued before an interrupt
enqueue has been released afterwards. -/
theorem interrupt_enqueue_sole_member_witness :
    1 ≤ releasedCount (speak "new" true true true queuedState) 5 :=
  (interrupt_enqueue_sole_member queuedState "new").2.2 oldArt (by decide)

/-! ## Claim C9 -/

/-- Claim C9: the artifact synthesized and enqueued by speak, and every
other observable effect of speak (queue, releases, loaded file, device
busyness, id counter, mode, pause flag), are identical for any two values
of the speech rate setting: speak never reads speech_rate (gTTS is called
with text, lang en and slow False only). -/
theorem speak_independent_of_speech_rate (s : AppState) (text : String)
    (intr pr pl : Bool) (r1 r2 : ℚ) :
    (speak text intr pr pl { s with speech_rate := r1 }).audio_queue
        = (speak text intr pr pl { s with speech_rate := r2 }).audio_queue
    ∧ (speak text intr pr pl { s with speech_rate := r1 }).released
        = (speak text intr pr pl { s with speech_rate := r2 }).released
    ∧ (speak text intr pr pl { s with speech_rate := r1 }).playing
        = (speak text intr pr pl { s with speech_rate := r2 }).playing
    ∧ (speak text intr pr pl { s with speech_rate := r1 }).busy
        = (speak text intr pr pl { s with speech_rate := r2 }).busy
    ∧ (speak text intr pr pl { s with speech_rate := r1 }).nextId
        = (speak text intr pr pl { s with speech_rate := r2 }).nextId
    ∧ (speak text intr pr pl { s with speech_rate := r1 }).current_state
        = (speak text intr pr pl { s with speech_rate := r2 }).current_state
    ∧ (speak text intr pr pl { s with speech_rate := r1 }).playbackEnabled
        = (speak text intr pr pl { s with speech_rate := r2 }).playbackEnabled := by
  refine ⟨?_, ?_, ?_, ?_, ?_, ?_, ?_⟩ <;>
    simp [speak_queue, speak_released, speak_playing, speak_busy, speak_nextId,
      speak_mode, speak_enabled]

/-! ## Claim C7 -/

/-- Any single processed command keeps the speech rate inside the
configured range [1/2, 2]. -/
theorem rate_bounds_step (c : String) (s : AppState)
    (h1 : 1/2 ≤ s.speech_rate) (h2 : s.speech_rate ≤ 2) :
    1/2 ≤ (process_command c s).1.speech_rate
    ∧ (process_command c s).1.speech_rate ≤ 2 := by
  simp only [process_command]
  cases hm : matchIntent (normalize c)
  · exact ⟨by simpa using h1, by simpa using h2⟩
  · exact ⟨by simpa using h1, by simpa using h2⟩
  · exact ⟨by simpa using h1, by simpa using h2⟩
  · dsimp only
    constructor
    · rw [speak_rate]
      show (1 : ℚ)/2 ≤ min 2 (s.speech_rate + 1/4)
      apply le_min
      · norm_num
      · linarith
    · rw [speak_rate]
      show min 2 (s.speech_rate + 1/4) ≤ 2
      exact min_le_left _ _
  · dsimp only
    constructor
    · rw [speak_rate]
      show (1 : ℚ)/2 ≤ max (1/2) (s.speech_rate - 1/4)
      exact le_max_left _ _
    · rw [speak_rate]
      show max (1/2) (s.speech_rate - 1/4) ≤ (2 : ℚ)
      apply max_le
      · norm_num
      · linarith
  · rename_i ref
    dsimp only
    cases hb : bibleLookup ref
    · exact ⟨by simpa using h1, by simpa using h2⟩
    · exact ⟨by simpa using h1, by simpa using h2⟩
  · exact ⟨by simpa using h1, by simpa using h2⟩

/-- Claim C7: for every sequence of speed commands starting from the
default rate 1, the speech rate stays within [1/2, 2]: repeated faster
commands never push it above 2 and repeated slower commands never push
it below 1/2 (min/max clamping of lines 130-138). -/
theorem speech_rate_clamped (cmds : List String) (s : AppState)
    (hstart : s.speech_rate = 1)
    (_hspeed : ∀ c ∈ cmds, matchIntent (normalize c) = Intent.faster
        ∨ matchIntent (normalize c) = Intent.slower) :
    1/2 ≤ (cmds.foldl (fun t c => (process_command c t).1) s).speech_rate
    ∧ (cmds.foldl (fun t c => (process_command c t).1) s).speech_rate ≤ 2 := by
  have hgen : ∀ (l : List String) (t : AppState), 1/2 ≤ t.speech_rate → t.speech_rate ≤ 2 →
      1/2 ≤ (l.foldl (fun u c => (process_command c u).1) t).speech_rate
      ∧ (l.foldl (fun u c => (process_command c u).1) t).speech_rate ≤ 2 := by
    intro l
    induction l with
    | nil => intro t a b; exact ⟨a, b⟩
    | cons c cs ih =>
        intro t a b
        have hstep := rate_bounds_step c t a b
        exact ih _ hstep.1 hstep.2
  exact hgen cmds s (by rw [hstart]; norm_num) (by rw [hstart]; norm_num)

/-- Witness for C7 on a concrete run of five faster commands. -/
theorem speech_rate_clamped_witness :
    1/2 ≤ ((["faster", "faster", "faster", "faster", "faster"].foldl
        (fun t c => (process_command c t).1) initState)).speech_rate
    ∧ ((["faster", "faster", "faster", "faster", "faster"].foldl
        (fun t c => (process_command c t).1) initState)).speech_rate ≤ 2 :=
  speech_rate_clamped ["faster", "faster", "faster", "faster", "faster"] initState rfl
    (by
      intro c hc
      have : c = "faster" := by
        simpa using hc
      rw [this]
      left
      decide)

/-! ## Claim C8 -/

/-- Claim C8: the rule cascade fires in priority order, first match wins:
a transcript containing pause yields Pause whatever else it contains; one
without pause containing resume or continue yields Resume; one without
those containing sleep or stop listening yields Sleep — in each case no
lower-priority speed or lookup rule is consulted, and being a total
function of the transcript, exactly one outcome fires. -/
theorem rule_priority_first_match (cmd : String) :
    (containsSub cmd "pause" = true → matchIntent cmd = Intent.pause)
    ∧ (containsSub cmd "pause" = false →
        (containsSub cmd "resume" || containsSub cmd "continue") = true →
        matchIntent cmd = Intent.resume)
    ∧ (containsSub cmd "pause" = false →
        (containsSub cmd "resume" || containsSub cmd "continue") = false →
        (containsSub cmd "sleep" || containsSub cmd "stop listening") = true →
        matchIntent cmd = Intent.sleep) := by
  refine ⟨?_, ?_, ?_⟩
  · intro h1
    unfold matchIntent
    simp [h1]
  · intro h1 h2
    unfold matchIntent
    simp [h1, h2]
  · intro h1 h2 h3
    unfold matchIntent
    simp only [h1, h2, h3]
    simp

/-- Witness for C8: a pause transcript with a slower keyword still maps
to Pause, and likewise down the priority chain. -/
theorem rule_priority_first_match_witness :
    matchIntent "pause slower" = Intent.pause
    ∧ matchIntent "resume faster" = Intent.resume
    ∧ matchIntent "sleep slower" = Intent.sleep :=
  ⟨(rule_priority_first_match "pause slower").1 (by decide),
   (rule_priority_first_match "resume faster").2.1 (by decide) (by decide),
   (rule_priority_first_match "sleep slower").2.2 (by decide) (by decide) (by decide)⟩

/-! ## Claim C3 -/

/-- Counterexample to C3 as stated: the code has no Stop rule and its
Intent space has no Stop variant at all.  The normalized transcript
"stop" — which contains the stop keyword — matches no rule: the matcher
returns Unrecognized and process_command answers "Command not recognized"
(returns False) instead of any stop behaviour. -/
theorem stop_transcript_not_stop_intent :
    matchIntent (normalize "stop") = Intent.unrecognized
    ∧ (process_command "stop" initState).2 = false := by
  constructor
  · decide
  · decide

/-- Amended C3: the only stop-phrase rule of the matcher is the Sleep
rule: a transcript containing stop listening (and no pause, resume or
continue keyword) yields Sleep; there is no Stop intent. -/
theorem stop_keywords_yield_sleep (cmd : String)
    (h1 : containsSub cmd "pause" = false)
    (h2 : (containsSub cmd "resume" || containsSub cmd "continue") = false)
    (h3 : containsSub cmd "stop listening" = true) :
    matchIntent cmd = Intent.sleep := by
  unfold matchIntent
  simp [h1, h2, h3]

/-- Witness for the amended C3. -/
theorem stop_keywords_yield_sleep_witness :
    matchIntent "stop listening" = Intent.sleep :=
  stop_keywords_yield_sleep "stop listening" (by decide) (by decide) (by decide)

/-! ## Claim C4 -/

/-- Counterexample to C4 as stated: process the command "pause" while
artifact 0 is busy playing.  The pause handler clears the flag, but its
own spoken acknowledgement (interruptible) stops the in-progress music,
so on the very next worker round — still inside the paused interval, the
flag is false and no resume has happened — the worker deletes artifact 0,
and on the round after that it starts playing the acknowledgement
(busy again): playback progress and a file deletion both occur while
paused. -/
theorem pause_interval_release_cex :
    (process_command "pause" playingState).1.playbackEnabled = false
    ∧ (workerRound (process_command "pause" playingState).1).playbackEnabled = false
    ∧ releasedCount (workerRound (process_command "pause" playingState).1) 0 = 1
    ∧ (workerRound (workerRound (process_command "pause" playingState).1)).busy = true
    ∧ (workerRound (workerRound (process_command "pause" playingState).1)).playbackEnabled
        = false := by
  refine ⟨?_, ?_, ?_, ?_, ?_⟩ <;> decide

/-- Amended C4: while the flag is cleared, the worker makes no progress
on, and releases nothing for, an artifact it is busy playing: it blocks
(any number of worker rounds leave the state unchanged) until resume sets
the flag.  The guard only protects busy playback: an artifact whose
playback already stopped or ended is still cleaned up while paused, and a
queued artifact is still fetched and started while paused. -/
theorem pause_blocks_busy_worker (s : AppState) (a : Artifact)
    (hc : s.crashed = false) (hp : s.playing = some a) (hb : s.busy = true)
    (he : s.playbackEnabled = false) :
    ∀ n, iterWorker n s = s := by
  intro n
  induction n with
  | zero => rfl
  | succ n ih =>
      show iterWorker n (workerRound s) = s
      rw [workerRound_eq_blocked s a hc hp hb he]
      exact ih

/-- Witness for the amended C4: three worker rounds leave a paused busy
state untouched. -/
theorem pause_blocks_busy_worker_witness :
    iterWorker 3 { playingState with playbackEnabled := false }
      = { playingState with playbackEnabled := false } :=
  pause_blocks_busy_worker { playingState with playbackEnabled := false } art0
    rfl rfl rfl rfl 3

/-! ## Claim C5 -/

/-- Counterexample to C5 as stated: with a failing artifact at the head
of the queue, one worker round kills the worker (the load exception is
uncaught), the failing request's artifact is not released, and the
playable artifact queued behind it is never started: the dead worker
leaves the queue and the empty player slot untouched forever after. -/
theorem load_error_crashes_worker_cex :
    (workerRound badState).crashed = true
    ∧ releasedCount (workerRound badState) 0 = 0
    ∧ (workerRound (workerRound badState)).audio_queue = [goodArt]
    ∧ (workerRound (workerRound badState)).playing = none
    ∧ (workerRound (workerRound badState)).crashed = true := by
  refine ⟨?_, ?_, ?_, ?_, ?_⟩ <;> decide

/-- Amended C5: an artifact that fails to open or play raises out of the
worker loop (lines 48-58 have no try/except): the request is popped but
not treated as finished — its artifact is never released — and the worker
thread dies, so it never advances to any further queued item. -/
theorem load_error_kills_worker (s : AppState) (a : Artifact) (rest : List Artifact)
    (hc : s.crashed = false) (hp : s.playing = none) (hq : s.audio_queue = a :: rest)
    (hpl : a.playable = false) :
    workerRound s = { s with audio_queue := rest, crashed := true }
    ∧ releasedCount (workerRound s) a.id = releasedCount s a.id
    ∧ ∀ n, 1 ≤ n → iterWorker n s = { s with audio_queue := rest, crashed := true } := by
  have hcr := workerRound_eq_crash s a rest hc hp hq hpl
  refine ⟨hcr, ?_, ?_⟩
  · rw [hcr]
    rfl
  · intro n hn
    have hdead : ∀ m, iterWorker m { s with audio_queue := rest, crashed := true }
        = { s with audio_queue := rest, crashed := true } := by
      intro m
      induction m with
      | zero => rfl
      | succ m ih =>
          show iterWorker m (workerRound { s with audio_queue := rest, crashed := true }) = _
          rw [workerRound_eq_dead _ rfl]
          exact ih
    rcases n with _ | m
    · omega
    · show iterWorker m (workerRound s) = _
      rw [hcr]
      exact hdead m

/-- Witness for the amended C5 on the concrete failing queue. -/
theorem load_error_kills_worker_witness :
    workerRound badState = { badState with audio_queue := [goodArt], crashed := true } :=
  (load_error_kills_worker badState badArt [goodArt] rfl rfl rfl rfl).1

/-! ## Claim C6 -/

/-- Counterexample to C6 as stated: the greeting is spoken with
interruptible=True, so waking while an artifact is busy playing stops the
in-progress playback — the greeting enqueue is not non-interrupting in
the spec sense (leave playback and queue untouched), even though its
priority flag is false. -/
theorem wake_greeting_interrupts_cex :
    sleepingBusyState.busy = true
    ∧ (sleepListen "bible" sleepingBusyState).current_state = 1
    ∧ (sleepListen "bible" sleepingBusyState).busy = false := by
  refine ⟨?_, ?_, ?_⟩ <;> decide

/-- Amended C6: in Sleeping, a transcript containing a wake word makes
the next mode Active and appends the greeting to the tail of the queue
with priority=false — no queued request is discarded and nothing is
released — but the call passes interruptible=True, so any in-progress
playback is stopped first. -/
theorem wake_greeting_enqueue (s : AppState) (text : String)
    (hw : (wake_words.any (fun w => containsSub text w)) = true) :
    (sleepListen text s).current_state = 1
    ∧ (sleepListen text s).audio_queue
        = s.audio_queue ++ [{ id := s.nextId, text := "How can I help you?", lang := "en", slow := false, playable := true }]
    ∧ (sleepListen text s).released = s.released
    ∧ (sleepListen text s).playbackEnabled = s.playbackEnabled
    ∧ (sleepListen text s).busy = false := by
  unfold sleepListen
  rw [if_pos hw]
  refine ⟨?_, ?_, ?_, ?_, ?_⟩
  · rw [speak_mode]
  · rw [speak_queue]
    simp
  · rw [speak_released]
    simp
  · rw [speak_enabled]
  · rw [speak_busy]
    simp

/-- Witness for the amended C6. -/
theorem wake_greeting_enqueue_witness :
    (sleepListen "bible" sleepingBusyState).current_state = 1
    ∧ (sleepListen "bible" sleepingBusyState).released = sleepingBusyState.released :=
  ⟨(wake_greeting_enqueue sleepingBusyState "bible" (by decide)).1,
   (wake_greeting_enqueue sleepingBusyState "bible" (by decide)).2.2.1⟩

/-! ## Claim C10 -/

/-- Counterexample to C10 as stated: a sleep command processed while an
artifact is busy playing stops the in-progress playback (the
acknowledgement is spoken with interruptible=True), so playback does not
continue while the session is asleep. -/
theorem sleep_command_stops_playback_cex :
    playingState.busy = true
    ∧ (process_command "sleep" playingState).1.current_state = 0
    ∧ (process_command "sleep" playingState).1.busy = false := by
  refine ⟨?_, ?_, ?_⟩ <;> decide

/-- Amended C10: a command whose matched rule is the sleep rule sets the
mode to Sleeping, appends the acknowledgement to the queue tail, and
leaves everything else alone — queued requests are kept and not released,
the playbackEnabled flag, speech rate and the loaded file are unchanged —
except that any in-progress (busy) playback is stopped by the
interruptible acknowledgement. -/
theorem sleep_command_frame (cmd : String) (s : AppState)
    (hm : matchIntent (normalize cmd) = Intent.sleep) :
    (process_command cmd s).1.current_state = 0
    ∧ (process_command cmd s).1.playbackEnabled = s.playbackEnabled
    ∧ (process_command cmd s).1.audio_queue
        = s.audio_queue ++ [{ id := s.nextId, text := "Going to sleep", lang := "en", slow := false, playable := true }]
    ∧ (process_command cmd s).1.released = s.released
    ∧ (process_command cmd s).1.speech_rate = s.speech_rate
    ∧ (process_command cmd s).1.playing = s.playing
    ∧ (process_command cmd s).1.busy = false
    ∧ (process_command cmd s).2 = true := by
  simp only [process_command, hm]
  refine ⟨?_, ?_, ?_, ?_, ?_, ?_, ?_, ?_⟩
  · rw [speak_mode]
  · rw [speak_enabled]
  · rw [speak_queue]
    simp
  · rw [speak_released]
    simp
  · rw [speak_rate]
  · rw [speak_playing]
  · rw [speak_busy]
    simp
  · trivial

/-- Witness for the amended C10. -/
theorem sleep_command_frame_witness :
    (process_command "sleep" playingState).1.playbackEnabled
        = playingState.playbackEnabled
    ∧ (process_command "sleep" playingState).1.released = playingState.released :=
  ⟨(sleep_command_frame "sleep" playingState (by decide)).2.1,
   (sleep_command_frame "sleep" playingState (by decide)).2.2.2.1⟩

end VoiceBible
